import Mathlib

/-!
Verification of the Sui bridge message-authentication and token-registry core.

Sources embedded here:
* `bridge::committee` (Move): the weighted-committee signature verifier
  `verify_signatures`, its genesis/test committees and the
  `SUI_MESSAGE_PREFIX` domain tag.
* `bridge::treasury` (Move, second revision, the one keying the waiting room
  by `String`): `register_foreign_token`, `approve_new_token`,
  `update_asset_notional_price`, `mint`, `burn`.
* The byte layout of the canonical bridge message encoding, pinned by the
  golden vector of `BridgeConfigTest.testUpdateTokenPricesRegressionTest`.

Bytes are `List Nat` with each entry a value `< 256`; u64 arithmetic that can
abort in Move is modelled with explicit `2 ^ 64` checks.  A Move `abort` is an
`Except.error` carrying the identity of the failed assertion; since an abort
rolls the whole transaction back, an erroring call returns no new state.
-/

/-- Identities of the Move aborts the embedded code can raise.  The first
block are the `const E...` codes declared by `bridge::committee` and
`bridge::treasury`; the second block are aborts raised inside the Sui
framework collections and arithmetic that the bridge code calls into. -/
inductive BridgeError where
  | duplicatedSignature
  | invalidSignature
  | belowThreshold
  | unsupportedTokenType
  | invalidUpgradeCap
  | tokenSupplyNonZero
  | keyDoesNotExist
  | keyAlreadyExists
  | fieldDoesNotExist
  | balanceOverflow
  | arithmeticOverflow
deriving DecidableEq, Repr

deriving instance DecidableEq for Except

/-- `sui::vec_map` lookup (`try_get` / the membership test of `contains`):
first entry whose key matches.  A `VecMap` maintains unique keys, so first
match is the only match on states built by the embedded operations. -/
def vec_map_get {α β : Type} [DecidableEq α] : List (α × β) → α → Option β
  | [], _ => none
  | (k, v) :: rest, key => if k = key then some v else vec_map_get rest key

/-- `sui::vec_map::insert` (also `bag::add` / `object_bag::add`): aborts when
the key is already present, otherwise pushes the new entry at the back. -/
def vec_map_insert {α β : Type} [DecidableEq α] (m : List (α × β)) (k : α) (v : β) :
    Except BridgeError (List (α × β)) :=
  match vec_map_get m k with
  | some _ => .error .keyAlreadyExists
  | none => .ok (m ++ [(k, v)])

/-- `sui::vec_map::get_mut` followed by a field assignment: replace the value
stored under a key, leaving every other entry alone. -/
def vec_map_set {α β : Type} [DecidableEq α] : List (α × β) → α → β → List (α × β)
  | [], _, _ => []
  | (k, v) :: rest, key, newv =>
    if k = key then (k, newv) :: rest else (k, v) :: vec_map_set rest key newv

/-- Remove every entry stored under a key (a `VecMap`/`Bag` holds at most
one, so this is exactly "remove the entry"). -/
def vec_map_erase {α β : Type} [DecidableEq α] : List (α × β) → α → List (α × β)
  | [], _ => []
  | (k, v) :: rest, key =>
    if k = key then vec_map_erase rest key else (k, v) :: vec_map_erase rest key

/-- `sui::bag::remove` (also `vec_map::remove`): aborts when the key is
absent, otherwise returns the stored value and the map without that entry. -/
def bag_remove {α β : Type} [DecidableEq α] (m : List (α × β)) (k : α) :
    Except BridgeError (β × List (α × β)) :=
  match vec_map_get m k with
  | none => .error .keyDoesNotExist
  | some v => .ok (v, vec_map_erase m k)

theorem vec_map_get_append_self {α β : Type} [DecidableEq α]
    (m : List (α × β)) (k : α) (v : β) (h : vec_map_get m k = none) :
    vec_map_get (m ++ [(k, v)]) k = some v := by
  induction m with
  | nil => simp [vec_map_get]
  | cons p rest ih =>
    rcases p with ⟨pk, pv⟩
    by_cases hk : pk = k
    · simp [vec_map_get, hk] at h
    · simp only [List.cons_append, vec_map_get, if_neg hk] at h ⊢
      exact ih h

theorem vec_map_get_append_ne {α β : Type} [DecidableEq α]
    (m : List (α × β)) (k k' : α) (v : β) (h : k' ≠ k) :
    vec_map_get (m ++ [(k, v)]) k' = vec_map_get m k' := by
  induction m with
  | nil =>
    have hk : k ≠ k' := Ne.symm h
    simp [vec_map_get, hk]
  | cons p rest ih =>
    rcases p with ⟨pk, pv⟩
    by_cases hk : pk = k'
    · simp [vec_map_get, hk]
    · simp [vec_map_get, hk, ih]

theorem vec_map_get_erase_self {α β : Type} [DecidableEq α]
    (m : List (α × β)) (k : α) :
    vec_map_get (vec_map_erase m k) k = none := by
  induction m with
  | nil => simp [vec_map_erase, vec_map_get]
  | cons p rest ih =>
    rcases p with ⟨pk, pv⟩
    by_cases hk : pk = k
    · simp [vec_map_erase, hk, ih]
    · simp [vec_map_erase, hk, vec_map_get, ih]

theorem vec_map_get_erase_ne {α β : Type} [DecidableEq α]
    (m : List (α × β)) (k k' : α) (h : k' ≠ k) :
    vec_map_get (vec_map_erase m k) k' = vec_map_get m k' := by
  induction m with
  | nil => simp [vec_map_erase]
  | cons p rest ih =>
    rcases p with ⟨pk, pv⟩
    by_cases hk : pk = k
    · subst hk
      have hne : pk ≠ k' := Ne.symm h
      simp [vec_map_erase, vec_map_get, hne, ih]
    · by_cases hk' : pk = k'
      · simp [vec_map_erase, hk, vec_map_get, hk', h]
      · simp [vec_map_erase, hk, vec_map_get, hk', ih]

theorem vec_map_get_set_self {α β : Type} [DecidableEq α]
    (m : List (α × β)) (k : α) (v newv : β) (h : vec_map_get m k = some v) :
    vec_map_get (vec_map_set m k newv) k = some newv := by
  induction m with
  | nil => simp [vec_map_get] at h
  | cons p rest ih =>
    rcases p with ⟨pk, pv⟩
    by_cases hk : pk = k
    · simp [vec_map_set, vec_map_get, hk]
    · simp only [vec_map_set, vec_map_get, if_neg hk] at h ⊢
      exact ih h

theorem vec_map_get_set_ne {α β : Type} [DecidableEq α]
    (m : List (α × β)) (k k' : α) (newv : β) (h : k' ≠ k) :
    vec_map_get (vec_map_set m k newv) k' = vec_map_get m k' := by
  induction m with
  | nil => simp [vec_map_set]
  | cons p rest ih =>
    rcases p with ⟨pk, pv⟩
    by_cases hk : pk = k
    · subst hk
      have hne : pk ≠ k' := Ne.symm h
      simp [vec_map_set, vec_map_get, hne]
    · by_cases hk' : pk = k'
      · simp [vec_map_set, vec_map_get, hk, hk', h]
      · simp [vec_map_set, vec_map_get, hk, hk', ih]

/-- `bridge::committee::SUI_MESSAGE_PREFIX`: the ASCII bytes of
"SUI_BRIDGE_MESSAGE", the domain-separation tag prepended to every encoded
bridge message before signature recovery. -/
def SUI_MESSAGE_PREFIX : List Nat :=
  [0x53, 0x55, 0x49, 0x5f, 0x42, 0x52, 0x49, 0x44, 0x47, 0x45, 0x5f,
   0x4d, 0x45, 0x53, 0x53, 0x41, 0x47, 0x45]

/-- A bridge message.  In the Move and Solidity sources the fields are
`u8 / u8 / u64 / u8 / vector<u8>`; they are carried as `Nat`s here and
masked to their widths where they are serialised. -/
structure BridgeMessage where
  messageType : Nat
  version : Nat
  nonce : Nat
  sourceChainId : Nat
  payload : List Nat
deriving DecidableEq, Repr

/-- Big-endian serialisation of a `u64` into 8 bytes. -/
def u64_be_bytes (n : Nat) : List Nat :=
  [n / 2 ^ 56 % 256, n / 2 ^ 48 % 256, n / 2 ^ 40 % 256, n / 2 ^ 32 % 256,
   n / 2 ^ 24 % 256, n / 2 ^ 16 % 256, n / 2 ^ 8 % 256, n % 256]

/-- Modelled from the spec: `bridge::message::serialise_message` (the Move
message codec module is not under `src/`; only its caller
`bridge::committee::verify_signatures` and the Solidity golden-vector test
are).  Per spec section 4.1 the encoding after the domain tag is
`messageType` (1 byte), `version` (1 byte), `nonce` (8 bytes big-endian),
`sourceChainId` (1 byte), then the raw payload bytes. -/
def serialise_message (m : BridgeMessage) : List Nat :=
  [m.messageType % 256, m.version % 256] ++ u64_be_bytes (m.nonce % 2 ^ 64) ++
    [m.sourceChainId % 256] ++ m.payload

/-- Modelled from the spec: `BridgeUtils.encodeMessage` (the Solidity
library is not under `src/`; only `BridgeConfigTest` which calls it is).
It emits the constant domain tag followed by the field encoding. -/
def encodeMessage (m : BridgeMessage) : List Nat :=
  SUI_MESSAGE_PREFIX ++ serialise_message m

/-- `bridge::committee::BridgeCommittee`: committee public keys with their
weights (`VecMap<vector<u8>, u64>`) and the per-message-type thresholds
(`VecMap<u8, u64>`). -/
structure BridgeCommittee where
  pub_keys : List (List Nat × Nat)
  thresholds : List (Nat × Nat)
deriving DecidableEq, Repr

/-- The prefixed byte string `verify_signatures` recovers signers against:
`SUI_MESSAGE_PREFIX` followed by the serialised message. -/
def message_bytes_of (m : BridgeMessage) : List Nat :=
  SUI_MESSAGE_PREFIX ++ serialise_message m

/-- The body of the `while` loop of `bridge::committee::verify_signatures`,
one recursive step per signature.  The source loop runs with an index `i`
and condition `vec_set::size(&seen_pub_key) < signature_counts`; every
iteration either aborts or inserts a previously unseen key into
`seen_pub_key`, so the set size equals `i` and the loop visits the
signatures in list order — which is how it is written here.  `recover`
stands for `ecdsa_k1::secp256k1_ecrecover(signature, &message_bytes, 0)`,
whose cryptographic content is kept abstract; `u64` accumulation aborts on
overflow as in Move. -/
def verify_loop (pub_keys : List (List Nat × Nat)) (message_bytes : List Nat)
    (recover : List Nat → List Nat → List Nat) :
    List (List Nat) → List (List Nat) → Nat → Except BridgeError Nat
  | [], _, acc => .ok acc
  | signature :: rest, seen_pub_key, acc =>
    let pubkey := recover signature message_bytes
    if pubkey ∈ seen_pub_key then .error .duplicatedSignature
    else
      match vec_map_get pub_keys pubkey with
      | none => .error .invalidSignature
      | some weight =>
        if acc + weight < 2 ^ 64 then
          verify_loop pub_keys message_bytes recover rest
            (pubkey :: seen_pub_key) (acc + weight)
        else .error .arithmeticOverflow

/-- `bridge::committee::verify_signatures`.  It first reads the required
threshold for the message's type (`vec_map::get` aborts with its
key-does-not-exist code when the type has no entry), prefixes the serialised
message with `SUI_MESSAGE_PREFIX`, folds over the signatures accumulating
the weights of distinct recovered committee keys, and finally asserts
`threshold >= required_threshold` (`ESignatureBelowThreshold`). -/
def verify_signatures (self : BridgeCommittee)
    (recover : List Nat → List Nat → List Nat)
    (message : BridgeMessage) (signatures : List (List Nat)) :
    Except BridgeError Unit :=
  match vec_map_get self.thresholds message.messageType with
  | none => .error .keyDoesNotExist
  | some required_threshold =>
    match verify_loop self.pub_keys (message_bytes_of message) recover
        signatures [] 0 with
    | .error e => .error e
    | .ok threshold =>
      if required_threshold ≤ threshold then .ok () else .error .belowThreshold

/-- The sequence of public keys the signatures recover to. -/
def recovered_keys (recover : List Nat → List Nat → List Nat)
    (message_bytes : List Nat) (signatures : List (List Nat)) : List (List Nat) :=
  signatures.map (fun signature => recover signature message_bytes)

/-- Summed committee weight of a sequence of keys (absent keys count 0; the
theorems only use it when every key is present). -/
def weight_sum (pub_keys : List (List Nat × Nat)) (keys : List (List Nat)) : Nat :=
  (keys.map (fun k => (vec_map_get pub_keys k).getD 0)).sum

/-- The committee of `bridge::committee`'s own tests (`setup_test`): two
members of weight 100 each and a threshold of 200 for message type 0; the
concrete key bytes are abbreviated to `[1]` and `[2]`, and signatures are
taken to be the recovered key itself (`id_recover`), a legitimate
instantiation of the abstract recovery function. -/
def test_committee_AB : BridgeCommittee :=
  ⟨[([1], 100), ([2], 100)], [(0, 200)]⟩

def id_recover : List Nat → List Nat → List Nat := fun signature _ => signature

def test_message_t0 : BridgeMessage := ⟨0, 1, 0, 0, []⟩

theorem recovered_keys_nil (recover : List Nat → List Nat → List Nat)
    (mb : List Nat) : recovered_keys recover mb [] = [] := rfl

theorem recovered_keys_cons (recover : List Nat → List Nat → List Nat)
    (mb : List Nat) (signature : List Nat) (rest : List (List Nat)) :
    recovered_keys recover mb (signature :: rest) =
      recover signature mb :: recovered_keys recover mb rest := rfl

theorem weight_sum_nil (pub_keys : List (List Nat × Nat)) :
    weight_sum pub_keys [] = 0 := rfl

theorem weight_sum_cons (pub_keys : List (List Nat × Nat))
    (k : List Nat) (ks : List (List Nat)) :
    weight_sum pub_keys (k :: ks) =
      (vec_map_get pub_keys k).getD 0 + weight_sum pub_keys ks := by
  simp [weight_sum]

/-- When the recovered keys are pairwise distinct, disjoint from the keys
already seen, all members of the committee, and their total weight fits in a
`u64`, the verification loop completes and returns the accumulated weight. -/
theorem verify_loop_ok (pub_keys : List (List Nat × Nat)) (mb : List Nat)
    (recover : List Nat → List Nat → List Nat) :
    ∀ (sigs : List (List Nat)) (seen : List (List Nat)) (acc : Nat),
      (recovered_keys recover mb sigs).Nodup →
      (∀ k ∈ recovered_keys recover mb sigs, k ∉ seen) →
      (∀ k ∈ recovered_keys recover mb sigs, (vec_map_get pub_keys k).isSome) →
      acc + weight_sum pub_keys (recovered_keys recover mb sigs) < 2 ^ 64 →
      verify_loop pub_keys mb recover sigs seen acc =
        .ok (acc + weight_sum pub_keys (recovered_keys recover mb sigs)) := by
  intro sigs
  induction sigs with
  | nil =>
    intro seen acc _ _ _ _
    simp [verify_loop, recovered_keys_nil, weight_sum_nil]
  | cons signature rest ih =>
    intro seen acc hnd hseen hmem hov
    rw [recovered_keys_cons] at hnd hseen hmem hov ⊢
    obtain ⟨hnd1, hnd2⟩ := List.nodup_cons.mp hnd
    have hk : recover signature mb ∉ seen :=
      hseen _ (List.mem_cons_self _ _)
    obtain ⟨w, hw⟩ := Option.isSome_iff_exists.mp
      (hmem _ (List.mem_cons_self _ _))
    rw [weight_sum_cons, hw] at hov
    simp only [Option.getD_some] at hov
    have hlt : acc + w < 2 ^ 64 := by omega
    rw [weight_sum_cons, hw]
    simp only [verify_loop, hw, Option.getD_some]
    rw [if_neg hk, if_pos hlt]
    have hrec := ih (recover signature mb :: seen) (acc + w) hnd2
      (by
        intro k hkr
        simp only [List.mem_cons, not_or]
        exact ⟨fun he => hnd1 (he ▸ hkr), hseen k (List.mem_cons_of_mem _ hkr)⟩)
      (fun k hkr => hmem k (List.mem_cons_of_mem _ hkr))
      (by omega)
    rw [hrec]
    congr 1
    omega

/-- When every recovered key is a committee member, the total weight fits in
a `u64`, and the recovered sequence repeats a key (or hits one already
seen), the verification loop aborts with `EDuplicatedSignature`. -/
theorem verify_loop_dup (pub_keys : List (List Nat × Nat)) (mb : List Nat)
    (recover : List Nat → List Nat → List Nat) :
    ∀ (sigs : List (List Nat)) (seen : List (List Nat)) (acc : Nat),
      (∀ k ∈ recovered_keys recover mb sigs, (vec_map_get pub_keys k).isSome) →
      acc + weight_sum pub_keys (recovered_keys recover mb sigs) < 2 ^ 64 →
      (¬ (recovered_keys recover mb sigs).Nodup ∨
        ∃ k ∈ recovered_keys recover mb sigs, k ∈ seen) →
      verify_loop pub_keys mb recover sigs seen acc =
        .error .duplicatedSignature := by
  intro sigs
  induction sigs with
  | nil =>
    intro seen acc _ _ hdup
    rcases hdup with hdup | ⟨k, hk, _⟩
    · exact absurd List.nodup_nil hdup
    · exact absurd hk (List.not_mem_nil k)
  | cons signature rest ih =>
    intro seen acc hmem hov hdup
    rw [recovered_keys_cons] at hmem hov hdup
    by_cases hk : recover signature mb ∈ seen
    · simp only [verify_loop]
      rw [if_pos hk]
    · obtain ⟨w, hw⟩ := Option.isSome_iff_exists.mp
        (hmem _ (List.mem_cons_self _ _))
      rw [weight_sum_cons, hw] at hov
      simp only [Option.getD_some] at hov
      have hlt : acc + w < 2 ^ 64 := by omega
      simp only [verify_loop, hw]
      rw [if_neg hk, if_pos hlt]
      apply ih (recover signature mb :: seen) (acc + w)
        (fun k hkr => hmem k (List.mem_cons_of_mem _ hkr)) (by omega)
      rcases hdup with hdup | ⟨k, hkmem, hkseen⟩
      · rw [List.nodup_cons] at hdup
        push_neg at hdup
        by_cases hin : recover signature mb ∈ recovered_keys recover mb rest
        · exact Or.inr ⟨_, hin, List.mem_cons_self _ _⟩
        · exact Or.inl (hdup hin)
      · rcases List.mem_cons.mp hkmem with he | hr
        · exact absurd (he ▸ hkseen) hk
        · exact Or.inr ⟨k, hr, List.mem_cons_of_mem _ hkseen⟩

/-- C1: Encoding the bridge message with messageType = UPDATE_TOKEN_PRICES
(byte 4), version = 1, nonce = 266, chain id = 3 and payload
0x01000000003b9aca00 yields exactly the byte string
0x5355495f4252494447455f4d4553534147450401000000000000010a0301000000003b9aca00:
the ASCII domain tag "SUI_BRIDGE_MESSAGE" followed by messageType (1 byte),
version (1 byte), nonce (8 bytes big-endian), chain id (1 byte) and the raw
payload bytes — the golden vector of `testUpdateTokenPricesRegressionTest`. -/
theorem C1_golden_vector_encode :
    encodeMessage ⟨4, 1, 266, 3, [0x01, 0x00, 0x00, 0x00, 0x00, 0x3b, 0x9a, 0xca, 0x00]⟩ =
      [0x53, 0x55, 0x49, 0x5f, 0x42, 0x52, 0x49, 0x44, 0x47, 0x45, 0x5f,
       0x4d, 0x45, 0x53, 0x53, 0x41, 0x47, 0x45,
       0x04, 0x01,
       0x00, 0x00, 0x00, 0x00, 0x00, 0x00, 0x01, 0x0a,
       0x03,
       0x01, 0x00, 0x00, 0x00, 0x00, 0x3b, 0x9a, 0xca, 0x00] := by
  decide

/-- C2 counterexample: the claim says an empty signature list ALWAYS fails
with `ESignatureBelowThreshold` because the accumulated weight starts at 0 —
but when the configured threshold for the message type is 0, the final check
is `0 >= 0` and `verify_signatures` succeeds on an empty signature list. -/
theorem C2_counterexample_zero_threshold :
    verify_signatures ⟨[], [(0, 0)]⟩ id_recover test_message_t0 [] = .ok () ∧
    verify_signatures ⟨[], [(0, 0)]⟩ id_recover test_message_t0 [] ≠
      .error .belowThreshold := by
  decide

/-- C2 (amended): for every committee and message whose type has a
configured threshold, when the recovered keys are pairwise distinct
committee members whose total weight fits in a u64, `verify_signatures`
succeeds exactly when the summed weight reaches the threshold (equality
satisfies the quorum) and aborts with `ESignatureBelowThreshold` exactly
when it falls short; an empty signature list fails with
`ESignatureBelowThreshold` whenever the configured threshold is positive
(the accumulated weight starts at 0); and in the committee weighted
{A:100, B:100} with threshold 200, A alone fails below threshold, A and B
succeed, and the empty list fails below threshold. -/
theorem C2_threshold_quorum :
    (∀ (c : BridgeCommittee) (recover : List Nat → List Nat → List Nat)
        (m : BridgeMessage) (sigs : List (List Nat)) (req : Nat),
      vec_map_get c.thresholds m.messageType = some req →
      (recovered_keys recover (message_bytes_of m) sigs).Nodup →
      (∀ k ∈ recovered_keys recover (message_bytes_of m) sigs,
        (vec_map_get c.pub_keys k).isSome) →
      weight_sum c.pub_keys (recovered_keys recover (message_bytes_of m) sigs) <
          2 ^ 64 →
      ((verify_signatures c recover m sigs = .ok () ↔
          req ≤ weight_sum c.pub_keys
            (recovered_keys recover (message_bytes_of m) sigs)) ∧
        (verify_signatures c recover m sigs = .error .belowThreshold ↔
          weight_sum c.pub_keys
            (recovered_keys recover (message_bytes_of m) sigs) < req) ∧
        (sigs = [] → 0 < req →
          verify_signatures c recover m sigs = .error .belowThreshold))) ∧
    verify_signatures test_committee_AB id_recover test_message_t0 [[1]] =
      .error .belowThreshold ∧
    verify_signatures test_committee_AB id_recover test_message_t0 [[1], [2]] =
      .ok () ∧
    verify_signatures test_committee_AB id_recover test_message_t0 [] =
      .error .belowThreshold := by
  refine ⟨?_, by decide, by decide, by decide⟩
  intro c recover m sigs req hreq hnd hmem hov
  have hloop := verify_loop_ok c.pub_keys (message_bytes_of m) recover sigs [] 0
    hnd (fun k _ => List.not_mem_nil k) hmem (by omega)
  rw [Nat.zero_add] at hloop
  have hver : verify_signatures c recover m sigs =
      if req ≤ weight_sum c.pub_keys
          (recovered_keys recover (message_bytes_of m) sigs)
      then .ok () else .error .belowThreshold := by
    simp only [verify_signatures, hreq, hloop]
  by_cases hle : req ≤ weight_sum c.pub_keys
      (recovered_keys recover (message_bytes_of m) sigs)
  · rw [if_pos hle] at hver
    refine ⟨⟨fun _ => hle, fun _ => hver⟩, ?_, ?_⟩
    · rw [hver]
      simp only [reduceCtorEq, false_iff]
      omega
    · intro hsigs hpos
      subst hsigs
      rw [recovered_keys_nil, weight_sum_nil] at hle
      omega
  · rw [if_neg hle] at hver
    refine ⟨?_, ⟨fun _ => by omega, fun _ => hver⟩, fun _ _ => hver⟩
    rw [hver]
    simp only [reduceCtorEq, false_iff]
    omega

/-- C2 witness: the amended theorem applied to the {A:100, B:100} committee
with threshold 200, signatures recovering to A and B. -/
theorem C2_threshold_quorum_witness :
    verify_signatures test_committee_AB id_recover test_message_t0 [[1], [2]] =
        .ok () ↔
      200 ≤ weight_sum test_committee_AB.pub_keys
        (recovered_keys id_recover (message_bytes_of test_message_t0) [[1], [2]]) :=
  (C2_threshold_quorum.1 test_committee_AB id_recover test_message_t0 [[1], [2]] 200
    (by decide) (by decide) (by decide) (by decide)).1

/-- C3: if the signature list contains two signatures recovering to the same
public key (all recovered keys being committee members, with total weight
fitting in a u64, and the message type having a configured threshold),
`verify_signatures` aborts with `EDuplicatedSignature` — it never reaches
the threshold comparison, so a repeated signer's weight is never counted
twice. -/
theorem C3_duplicate_signature_aborts :
    ∀ (c : BridgeCommittee) (recover : List Nat → List Nat → List Nat)
      (m : BridgeMessage) (sigs : List (List Nat)),
      (vec_map_get c.thresholds m.messageType).isSome →
      (∀ k ∈ recovered_keys recover (message_bytes_of m) sigs,
        (vec_map_get c.pub_keys k).isSome) →
      weight_sum c.pub_keys (recovered_keys recover (message_bytes_of m) sigs) <
        2 ^ 64 →
      ¬ (recovered_keys recover (message_bytes_of m) sigs).Nodup →
      verify_signatures c recover m sigs = .error .duplicatedSignature := by
  intro c recover m sigs hth hmem hov hdup
  obtain ⟨req, hreq⟩ := Option.isSome_iff_exists.mp hth
  have hloop := verify_loop_dup c.pub_keys (message_bytes_of m) recover sigs [] 0
    hmem (by omega) (Or.inl hdup)
  simp only [verify_signatures, hreq, hloop]

/-- C3 witness: in the test committee, the same valid signature twice (both
recovering to member A) aborts with `EDuplicatedSignature`, exactly the
scenario of `test_verify_signatures_duplicated_sig`. -/
theorem C3_duplicate_signature_aborts_witness :
    verify_signatures test_committee_AB id_recover test_message_t0 [[1], [1]] =
      .error .duplicatedSignature :=
  C3_duplicate_signature_aborts test_committee_AB id_recover test_message_t0
    [[1], [1]] (by decide) (by decide) (by decide) (by decide)

/-- C4: for every message whose type has no entry in the committee's
thresholds map, `verify_signatures` aborts at the very first step — the
`vec_map::get` on `thresholds` raises its key-does-not-exist abort, the
unsupported-message-type failure — and in particular never treats the
missing threshold as 0 and never accepts the message. -/
theorem C4_unknown_message_type_fails_closed :
    ∀ (c : BridgeCommittee) (recover : List Nat → List Nat → List Nat)
      (m : BridgeMessage) (sigs : List (List Nat)),
      vec_map_get c.thresholds m.messageType = none →
      verify_signatures c recover m sigs = .error .keyDoesNotExist ∧
      verify_signatures c recover m sigs ≠ .ok () := by
  intro c recover m sigs h
  refine ⟨by simp only [verify_signatures, h], ?_⟩
  simp only [verify_signatures, h]
  simp

/-- C4 witness: the test committee only configures a threshold for message
type 0, so a message of type 7 is rejected with the key-does-not-exist
abort even when carrying an otherwise sufficient signature set. -/
theorem C4_unknown_message_type_witness :
    verify_signatures test_committee_AB id_recover ⟨7, 1, 0, 0, []⟩ [[1], [2]] =
      .error .keyDoesNotExist ∧
    verify_signatures test_committee_AB id_recover ⟨7, 1, 0, 0, []⟩ [[1], [2]] ≠
      .ok () :=
  C4_unknown_message_type_fails_closed test_committee_AB id_recover
    ⟨7, 1, 0, 0, []⟩ [[1], [2]] (by decide)

/-- `std::type_name::TypeName`: the fully-qualified name of a Move type,
split into the address of its defining package and the rest of the name.
Each Move type parameter `T` of the treasury functions is represented by
the value `type_name::get<T>()`. -/
structure MoveTypeName where
  addr : Nat
  nm : String
deriving DecidableEq, Repr

/-- `std::type_name::into_string`: the ASCII rendering of a type name (the
key the second-revision waiting room is indexed by).  It is injective, which
is all the embedded code relies on. -/
def MoveTypeName.into_string (t : MoveTypeName) : String :=
  toString t.addr ++ "::" ++ t.nm

/-- `sui::coin::TreasuryCap<T>`, reduced to the one observable the bridge
reads and mutates: the total minted supply of `T`. -/
structure TreasuryCap where
  total_supply : Nat
deriving DecidableEq, Repr

/-- `sui::package::UpgradeCap`, reduced to the address of the package it
authorizes upgrades for (`package::upgrade_package`). -/
structure UpgradeCap where
  package_addr : Nat
deriving DecidableEq, Repr

/-- `sui::coin::CoinMetadata<T>`, reduced to `coin::get_decimals`. -/
structure CoinMetadata where
  decimals : Nat
deriving DecidableEq, Repr

/-- `bridge::treasury::BridgeTokenMetadata`. -/
structure BridgeTokenMetadata where
  id : Nat
  decimal_multiplier : Nat
  notional_value : Nat
  native_token : Bool
deriving DecidableEq, Repr

/-- `bridge::treasury::ForeignTokenRegistration` (second revision): the
type name, the upgrade authority held for later freezing, and the decimals
recorded from the coin metadata at registration time. -/
structure ForeignTokenRegistration where
  type_name : MoveTypeName
  uc : UpgradeCap
  decimal : Nat
deriving DecidableEq, Repr

/-- `bridge::treasury::BridgeTreasury` (second revision): the deposited
mint authorities (`ObjectBag` keyed by type name), the supported-token
metadata (`VecMap<TypeName, BridgeTokenMetadata>`), the reverse id map
(`VecMap<u8, TypeName>`), and the waiting room (`Bag` keyed by the string
rendering of the type name). -/
structure BridgeTreasury where
  treasuries : List (MoveTypeName × TreasuryCap)
  supported_tokens : List (MoveTypeName × BridgeTokenMetadata)
  id_token_type_map : List (Nat × MoveTypeName)
  waiting_room : List (String × ForeignTokenRegistration)
deriving DecidableEq, Repr

/-- Events emitted by `bridge::treasury` (`sui::event::emit`). -/
inductive BridgeEvent where
  | updateTokenPrice (token_id : Nat) (new_price : Nat)
  | newToken (token_id : Nat) (type_name : MoveTypeName) (native_token : Bool)
  | tokenRegistration (type_name : MoveTypeName) (decimal : Nat) (native_token : Bool)
deriving DecidableEq, Repr

/-- Modelled from the spec: `sui::math::pow` (the framework math module is
not under `src/`).  Spec section 3 fixes `decimalMultiplier = 10^decimals`
as a `uint64`; u64 arithmetic aborts on overflow, so the model returns
`base ^ exponent` when it fits in a u64 and aborts otherwise (for base 10
this agrees with the framework's repeated-squaring loop on every exponent). -/
def math_pow (base exponent : Nat) : Except BridgeError Nat :=
  if base ^ exponent < 2 ^ 64 then .ok (base ^ exponent)
  else .error .arithmeticOverflow

/-- `bridge::treasury::register_foreign_token<T>` (second revision).
Asserts the treasury cap is unused (`ETokenSupplyNonZero`), asserts the
upgrade cap is for the coin's package (`EInvalidUpgradeCap`; the
ascii-address round-trip of the source is the identity on the address
component here), then stores the pending registration in the waiting room
under the string rendering of the type name, deposits the treasury cap,
and emits `TokenRegistrationEvent`. -/
def register_foreign_token (self : BridgeTreasury) (t : MoveTypeName)
    (tc : TreasuryCap) (uc : UpgradeCap) (metadata : CoinMetadata) :
    Except BridgeError (BridgeTreasury × List BridgeEvent) :=
  if tc.total_supply ≠ 0 then .error .tokenSupplyNonZero
  else if uc.package_addr ≠ t.addr then .error .invalidUpgradeCap
  else
    match vec_map_insert self.waiting_room t.into_string ⟨t, uc, metadata.decimals⟩ with
    | .error e => .error e
    | .ok waiting_room' =>
      match vec_map_insert self.treasuries t tc with
      | .error e => .error e
      | .ok treasuries' =>
        .ok (⟨treasuries', self.supported_tokens, self.id_token_type_map,
              waiting_room'⟩,
             [.tokenRegistration t metadata.decimals false])

/-- `bridge::treasury::approve_new_token` (second revision).  For a
non-native token it removes the pending registration stored under
`token_name` (aborting when absent), inserts the token metadata with
`decimal_multiplier = 10^decimal` under the registration's type name,
inserts the reverse id mapping, freezes the upgrade cap
(`transfer::public_freeze_object`, returned in the third component), and
emits `NewTokenEvent`.  For a native token the body is empty ("Not
implemented for V1"). -/
def approve_new_token (self : BridgeTreasury) (token_name : String)
    (token_id : Nat) (native_token : Bool) (notional_value : Nat) :
    Except BridgeError (BridgeTreasury × List BridgeEvent × List UpgradeCap) :=
  if !native_token then
    match bag_remove self.waiting_room token_name with
    | .error e => .error e
    | .ok (reg, waiting_room') =>
      match math_pow 10 reg.decimal with
      | .error e => .error e
      | .ok decimal_multiplier =>
        match vec_map_insert self.supported_tokens reg.type_name
            ⟨token_id, decimal_multiplier, notional_value, native_token⟩ with
        | .error e => .error e
        | .ok supported_tokens' =>
          match vec_map_insert self.id_token_type_map token_id reg.type_name with
          | .error e => .error e
          | .ok id_token_type_map' =>
            .ok (⟨self.treasuries, supported_tokens', id_token_type_map',
                  waiting_room'⟩,
                 [.newToken token_id reg.type_name native_token],
                 [reg.uc])
  else
    .ok (self, [], [])

/-- `bridge::treasury::update_asset_notional_price` (second revision).
`try_get` on the id map, aborting with `EUnsupportedTokenType` when the id
is unknown; then `get_mut` on `supported_tokens` (which aborts with the
vec_map key-does-not-exist code if the mapped type were not supported),
assignment of `notional_value`, and `UpdateTokenPriceEvent`. -/
def update_asset_notional_price (self : BridgeTreasury) (token_id : Nat)
    (new_usd_price : Nat) :
    Except BridgeError (BridgeTreasury × List BridgeEvent) :=
  match vec_map_get self.id_token_type_map token_id with
  | none => .error .unsupportedTokenType
  | some type_name =>
    match vec_map_get self.supported_tokens type_name with
    | none => .error .keyDoesNotExist
    | some metadata =>
      .ok (⟨self.treasuries,
            vec_map_set self.supported_tokens type_name
              ⟨metadata.id, metadata.decimal_multiplier, new_usd_price,
               metadata.native_token⟩,
            self.id_token_type_map, self.waiting_room⟩,
           [.updateTokenPrice token_id new_usd_price])

/-- `bridge::treasury::burn<T>` (second revision): index the `ObjectBag` of
treasuries at `type_name::get<T>()` (this aborts with the dynamic-field
field-does-not-exist code when `T` was never registered) and call
`coin::burn`, which decreases the total supply by the burnt coin's value —
modelled from the spec for the `sui::coin`/`sui::balance` layer (not under
`src/`), whose decrease asserts the supply covers the value. -/
def burn (self : BridgeTreasury) (t : MoveTypeName) (token_value : Nat) :
    Except BridgeError BridgeTreasury :=
  match vec_map_get self.treasuries t with
  | none => .error .fieldDoesNotExist
  | some tc =>
    if tc.total_supply < token_value then .error .balanceOverflow
    else
      .ok ⟨vec_map_set self.treasuries t ⟨tc.total_supply - token_value⟩,
           self.supported_tokens, self.id_token_type_map, self.waiting_room⟩

/-- `bridge::treasury::mint<T>` (second revision): index the `ObjectBag` of
treasuries at `type_name::get<T>()` (aborting with the field-does-not-exist
code when `T` was never registered) and call `coin::mint`, which increases
the total supply by `amount` and returns a coin of value `amount` — the
`sui::coin`/`sui::balance` layer is modelled from the spec (not under
`src/`); its increase aborts when the supply would exceed the u64 range. -/
def mint (self : BridgeTreasury) (t : MoveTypeName) (amount : Nat) :
    Except BridgeError (BridgeTreasury × Nat) :=
  match vec_map_get self.treasuries t with
  | none => .error .fieldDoesNotExist
  | some tc =>
    if tc.total_supply + amount < 2 ^ 64 then
      .ok (⟨vec_map_set self.treasuries t ⟨tc.total_supply + amount⟩,
            self.supported_tokens, self.id_token_type_map, self.waiting_room⟩,
           amount)
    else .error .balanceOverflow

theorem pow10_lt_u64 (d : Nat) (hd : d < 20) : (10 : Nat) ^ d < 2 ^ 64 := by
  calc (10 : Nat) ^ d ≤ 10 ^ 19 := Nat.pow_le_pow_right (by norm_num) (by omega)
  _ < 2 ^ 64 := by norm_num

/-- The successful path of `approve_new_token` for a non-native token,
spelled out: the registration is removed, metadata and reverse mapping are
appended, the upgrade cap is frozen, `NewTokenEvent` is emitted. -/
theorem approve_new_token_spec (self : BridgeTreasury) (token_name : String)
    (reg : ForeignTokenRegistration) (token_id notional_value : Nat)
    (hreg : vec_map_get self.waiting_room token_name = some reg)
    (hdec : reg.decimal < 20)
    (hsup : vec_map_get self.supported_tokens reg.type_name = none)
    (hid : vec_map_get self.id_token_type_map token_id = none) :
    approve_new_token self token_name token_id false notional_value =
      .ok (⟨self.treasuries,
            self.supported_tokens ++
              [(reg.type_name, ⟨token_id, 10 ^ reg.decimal, notional_value, false⟩)],
            self.id_token_type_map ++ [(token_id, reg.type_name)],
            vec_map_erase self.waiting_room token_name⟩,
           [.newToken token_id reg.type_name false], [reg.uc]) := by
  have h10 := pow10_lt_u64 reg.decimal hdec
  simp only [approve_new_token, bag_remove, hreg, math_pow, if_pos h10,
    vec_map_insert, hsup, hid, Bool.not_false, if_true]

/-- C5: for every non-native token type T with a pending registration in the
waiting room (whose recorded decimals keep `10^decimals` inside a u64, and
whose type key and token id are not yet registered), `approve_new_token`
removes the pending entry, inserts under the registration's own type key a
`BridgeTokenMetadata` with id = token_id, decimal_multiplier = 10^decimals,
the given notional value and native_token = false, inserts the reverse
token_id ↦ T mapping, permanently freezes the associated upgrade cap, and
emits `NewTokenEvent`. -/
theorem C5_approve_new_token_effect :
    ∀ (self : BridgeTreasury) (token_name : String)
      (reg : ForeignTokenRegistration) (token_id notional_value : Nat),
      vec_map_get self.waiting_room token_name = some reg →
      reg.decimal < 20 →
      vec_map_get self.supported_tokens reg.type_name = none →
      vec_map_get self.id_token_type_map token_id = none →
      ∃ s' : BridgeTreasury,
        approve_new_token self token_name token_id false notional_value =
          .ok (s', [.newToken token_id reg.type_name false], [reg.uc]) ∧
        vec_map_get s'.waiting_room token_name = none ∧
        vec_map_get s'.supported_tokens reg.type_name =
          some ⟨token_id, 10 ^ reg.decimal, notional_value, false⟩ ∧
        vec_map_get s'.id_token_type_map token_id = some reg.type_name ∧
        s'.treasuries = self.treasuries := by
  intro self token_name reg token_id nv hreg hdec hsup hid
  refine ⟨_, approve_new_token_spec self token_name reg token_id nv hreg hdec hsup hid,
    ?_, ?_, ?_, rfl⟩
  · exact vec_map_get_erase_self _ _
  · exact vec_map_get_append_self _ _ _ hsup
  · exact vec_map_get_append_self _ _ _ hid

/-- A treasury whose waiting room holds one pending six-decimal
registration under the key "usdc". -/
def type_USDC : MoveTypeName := ⟨7, "usdc::USDC"⟩

def reg_USDC : ForeignTokenRegistration := ⟨type_USDC, ⟨7⟩, 6⟩

def treasury_with_pending : BridgeTreasury :=
  ⟨[], [], [], [("usdc", reg_USDC)]⟩

/-- C5 witness: approving the pending six-decimal registration as token id 3
with notional value 10000 yields decimal_multiplier 10^6. -/
theorem C5_approve_new_token_effect_witness :
    ∃ s' : BridgeTreasury,
      approve_new_token treasury_with_pending "usdc" 3 false 10000 =
        .ok (s', [.newToken 3 reg_USDC.type_name false], [reg_USDC.uc]) ∧
      vec_map_get s'.waiting_room "usdc" = none ∧
      vec_map_get s'.supported_tokens reg_USDC.type_name =
        some ⟨3, 10 ^ reg_USDC.decimal, 10000, false⟩ ∧
      vec_map_get s'.id_token_type_map 3 = some reg_USDC.type_name ∧
      s'.treasuries = treasury_with_pending.treasuries :=
  C5_approve_new_token_effect treasury_with_pending "usdc" reg_USDC 3 10000
    rfl (by decide) rfl rfl

/-- C6: a pending registration is consumed at most once — for a non-native
token, a first `approve_new_token` succeeds and any second call with the
same token name aborts with the waiting-room removal's not-found error
(rather than silently making no change), so `supported_tokens` never gains
two entries for the same registration. -/
theorem C6_registration_consumed_once :
    ∀ (self : BridgeTreasury) (token_name : String)
      (reg : ForeignTokenRegistration) (token_id notional_value : Nat),
      vec_map_get self.waiting_room token_name = some reg →
      reg.decimal < 20 →
      vec_map_get self.supported_tokens reg.type_name = none →
      vec_map_get self.id_token_type_map token_id = none →
      ∃ (s' : BridgeTreasury) (ev : List BridgeEvent) (fr : List UpgradeCap),
        approve_new_token self token_name token_id false notional_value =
          .ok (s', ev, fr) ∧
        ∀ (token_id' notional_value' : Nat),
          approve_new_token s' token_name token_id' false notional_value' =
            .error .keyDoesNotExist := by
  intro self token_name reg token_id nv hreg hdec hsup hid
  refine ⟨_, _, _,
    approve_new_token_spec self token_name reg token_id nv hreg hdec hsup hid, ?_⟩
  intro token_id' nv'
  have hnone : vec_map_get (vec_map_erase self.waiting_room token_name) token_name =
      none := vec_map_get_erase_self _ _
  simp only [approve_new_token, bag_remove, hnone, Bool.not_false, if_true]

/-- C6 witness: the concrete pending "usdc" registration is approved once,
then the second approval fails with the not-found abort. -/
theorem C6_registration_consumed_once_witness :
    ∃ (s' : BridgeTreasury) (ev : List BridgeEvent) (fr : List UpgradeCap),
      approve_new_token treasury_with_pending "usdc" 3 false 10000 =
        .ok (s', ev, fr) ∧
      ∀ (token_id' notional_value' : Nat),
        approve_new_token s' "usdc" token_id' false notional_value' =
          .error .keyDoesNotExist :=
  C6_registration_consumed_once treasury_with_pending "usdc" reg_USDC 3 10000
    rfl (by decide) rfl rfl

/-- C7: `register_foreign_token<T>` aborts with `ETokenSupplyNonZero`
whenever the treasury cap's total minted supply is nonzero, aborts with
`EInvalidUpgradeCap` whenever the upgrade cap's package address differs
from the package address of the coin type T, and otherwise (for a type not
yet registered) stores a pending registration for T in the waiting room
(and deposits the treasury cap), emitting `TokenRegistrationEvent`. -/
theorem C7_register_foreign_token_guards :
    ∀ (self : BridgeTreasury) (t : MoveTypeName) (tc : TreasuryCap)
      (uc : UpgradeCap) (metadata : CoinMetadata),
      (tc.total_supply ≠ 0 →
        register_foreign_token self t tc uc metadata =
          .error .tokenSupplyNonZero) ∧
      (tc.total_supply = 0 → uc.package_addr ≠ t.addr →
        register_foreign_token self t tc uc metadata =
          .error .invalidUpgradeCap) ∧
      (tc.total_supply = 0 → uc.package_addr = t.addr →
        vec_map_get self.waiting_room t.into_string = none →
        vec_map_get self.treasuries t = none →
        ∃ s' : BridgeTreasury,
          register_foreign_token self t tc uc metadata =
            .ok (s', [.tokenRegistration t metadata.decimals false]) ∧
          vec_map_get s'.waiting_room t.into_string =
            some ⟨t, uc, metadata.decimals⟩ ∧
          vec_map_get s'.treasuries t = some tc ∧
          s'.supported_tokens = self.supported_tokens ∧
          s'.id_token_type_map = self.id_token_type_map) := by
  intro self t tc uc metadata
  refine ⟨?_, ?_, ?_⟩
  · intro h
    simp [register_foreign_token, h]
  · intro h0 hne
    simp [register_foreign_token, h0, hne]
  · intro h0 heq hw ht
    refine ⟨⟨self.treasuries ++ [(t, tc)], self.supported_tokens,
      self.id_token_type_map,
      self.waiting_room ++ [(t.into_string, ⟨t, uc, metadata.decimals⟩)]⟩,
      ?_, ?_, ?_, rfl, rfl⟩
    · simp [register_foreign_token, h0, heq, vec_map_insert, hw, ht]
    · exact vec_map_get_append_self _ _ _ hw
    · exact vec_map_get_append_self _ _ _ ht

/-- C7 witness: registering a fresh zero-supply coin whose upgrade cap
matches its package address stores the pending registration. -/
theorem C7_register_foreign_token_witness :
    ∃ s' : BridgeTreasury,
      register_foreign_token ⟨[], [], [], []⟩ type_USDC ⟨0⟩ ⟨7⟩ ⟨6⟩ =
        .ok (s', [.tokenRegistration type_USDC 6 false]) ∧
      vec_map_get s'.waiting_room type_USDC.into_string = some ⟨type_USDC, ⟨7⟩, 6⟩ ∧
      vec_map_get s'.treasuries type_USDC = some ⟨0⟩ ∧
      s'.supported_tokens = [] ∧
      s'.id_token_type_map = [] :=
  (C7_register_foreign_token_guards ⟨[], [], [], []⟩ type_USDC ⟨0⟩ ⟨7⟩ ⟨6⟩).2.2
    rfl rfl rfl rfl

/-- C8: `update_asset_notional_price(token_id, new_usd_price)` aborts with
`EUnsupportedTokenType` (leaving the treasury unchanged, since an abort
returns no state) whenever token_id has no entry in `id_token_type_map`;
otherwise it sets the notional_value of exactly the token mapped to
token_id and emits `UpdateTokenPriceEvent`, leaving that token's id,
decimal_multiplier and native_token fields, every other token's metadata,
and the other treasury components unchanged. -/
theorem C8_update_price_frame :
    ∀ (self : BridgeTreasury) (token_id new_usd_price : Nat),
      (vec_map_get self.id_token_type_map token_id = none →
        update_asset_notional_price self token_id new_usd_price =
          .error .unsupportedTokenType) ∧
      (∀ (tn : MoveTypeName) (md : BridgeTokenMetadata),
        vec_map_get self.id_token_type_map token_id = some tn →
        vec_map_get self.supported_tokens tn = some md →
        ∃ s' : BridgeTreasury,
          update_asset_notional_price self token_id new_usd_price =
            .ok (s', [.updateTokenPrice token_id new_usd_price]) ∧
          vec_map_get s'.supported_tokens tn =
            some ⟨md.id, md.decimal_multiplier, new_usd_price, md.native_token⟩ ∧
          (∀ tn' : MoveTypeName, tn' ≠ tn →
            vec_map_get s'.supported_tokens tn' =
              vec_map_get self.supported_tokens tn') ∧
          s'.treasuries = self.treasuries ∧
          s'.id_token_type_map = self.id_token_type_map ∧
          s'.waiting_room = self.waiting_room) := by
  intro self token_id price
  refine ⟨fun h => by simp [update_asset_notional_price, h], ?_⟩
  intro tn md hid hsup
  refine ⟨⟨self.treasuries,
    vec_map_set self.supported_tokens tn
      ⟨md.id, md.decimal_multiplier, price, md.native_token⟩,
    self.id_token_type_map, self.waiting_room⟩, ?_, ?_, ?_, rfl, rfl, rfl⟩
  · simp [update_asset_notional_price, hid, hsup]
  · exact vec_map_get_set_self _ _ _ _ hsup
  · intro tn' hne
    exact vec_map_get_set_ne _ _ _ _ hne

/-- A treasury supporting one token (id 3, six decimals, price 10000) used
as the concrete frame witness. -/
def treasury_usdc_supported : BridgeTreasury :=
  ⟨[], [(type_USDC, ⟨3, 1000000, 10000, false⟩)], [(3, type_USDC)], []⟩

/-- C8 witness: repricing token id 3 to 12000 changes exactly its
notional value. -/
theorem C8_update_price_frame_witness :
    ∃ s' : BridgeTreasury,
      update_asset_notional_price treasury_usdc_supported 3 12000 =
        .ok (s', [.updateTokenPrice 3 12000]) ∧
      vec_map_get s'.supported_tokens type_USDC =
        some ⟨3, 1000000, 12000, false⟩ ∧
      (∀ tn' : MoveTypeName, tn' ≠ type_USDC →
        vec_map_get s'.supported_tokens tn' =
          vec_map_get treasury_usdc_supported.supported_tokens tn') ∧
      s'.treasuries = treasury_usdc_supported.treasuries ∧
      s'.id_token_type_map = treasury_usdc_supported.id_token_type_map ∧
      s'.waiting_room = treasury_usdc_supported.waiting_room :=
  (C8_update_price_frame treasury_usdc_supported 3 12000).2 type_USDC
    ⟨3, 1000000, 10000, false⟩ rfl rfl

/-- C9 counterexample: for a token type that was never registered, `mint`
and `burn` do NOT abort with `EUnsupportedTokenType` (the error code the
treasury module defines and raises elsewhere): indexing the `ObjectBag` of
treasuries aborts inside the framework's dynamic-field machinery with its
field-does-not-exist code. -/
theorem C9_counterexample_error_identity :
    burn ⟨[], [], [], []⟩ type_USDC 5 = .error .fieldDoesNotExist ∧
    burn ⟨[], [], [], []⟩ type_USDC 5 ≠ .error .unsupportedTokenType ∧
    mint ⟨[], [], [], []⟩ type_USDC 5 = .error .fieldDoesNotExist ∧
    mint ⟨[], [], [], []⟩ type_USDC 5 ≠ .error .unsupportedTokenType := by
  refine ⟨rfl, ?_, rfl, ?_⟩
  · intro h
    cases h
  · intro h
    cases h

/-- C9 (amended): for every token type T never registered, `mint<T>` and
`burn<T>` fail — with the object-bag field-does-not-exist abort rather than
`EUnsupportedTokenType` — and for a registered T they are simple
pass-throughs to the deposited treasury cap: `burn` reduces the supply by
the coin's value and `mint` increases it by the requested amount and
returns a coin of that amount (within u64 supply bounds). -/
theorem C9_amended_mint_burn :
    ∀ (self : BridgeTreasury) (t : MoveTypeName) (amount token_value : Nat),
      (vec_map_get self.treasuries t = none →
        mint self t amount = .error .fieldDoesNotExist ∧
        burn self t token_value = .error .fieldDoesNotExist) ∧
      (∀ tc : TreasuryCap,
        vec_map_get self.treasuries t = some tc →
        (tc.total_supply + amount < 2 ^ 64 →
          mint self t amount =
            .ok (⟨vec_map_set self.treasuries t ⟨tc.total_supply + amount⟩,
                  self.supported_tokens, self.id_token_type_map,
                  self.waiting_room⟩, amount)) ∧
        (token_value ≤ tc.total_supply →
          burn self t token_value =
            .ok ⟨vec_map_set self.treasuries t ⟨tc.total_supply - token_value⟩,
                 self.supported_tokens, self.id_token_type_map,
                 self.waiting_room⟩)) := by
  intro self t amount token_value
  refine ⟨fun h => ⟨by simp [mint, h], by simp [burn, h]⟩, ?_⟩
  intro tc htc
  refine ⟨fun hfit => by simp only [mint, htc]; rw [if_pos hfit], fun hle => ?_⟩
  have hnot : ¬ tc.total_supply < token_value := by omega
  simp [burn, htc, hnot]

/-- C9 witness: on a treasury holding a cap of supply 100 for the USDC
type, minting 7 returns a coin of value 7 (supply 107) and burning 7 gives
supply 93. -/
theorem C9_amended_mint_burn_witness :
    mint ⟨[(type_USDC, ⟨100⟩)], [], [], []⟩ type_USDC 7 =
      .ok (⟨vec_map_set [(type_USDC, ⟨100⟩)] type_USDC ⟨107⟩, [], [], []⟩, 7) ∧
    burn ⟨[(type_USDC, ⟨100⟩)], [], [], []⟩ type_USDC 7 =
      .ok ⟨vec_map_set [(type_USDC, ⟨100⟩)] type_USDC ⟨93⟩, [], [], []⟩ :=
  ⟨((C9_amended_mint_burn ⟨[(type_USDC, ⟨100⟩)], [], [], []⟩ type_USDC 7 7).2
      ⟨100⟩ rfl).1 (by norm_num),
   ((C9_amended_mint_burn ⟨[(type_USDC, ⟨100⟩)], [], [], []⟩ type_USDC 7 7).2
      ⟨100⟩ rfl).2 (by norm_num)⟩

/-- C10: calling `approve_new_token` with native_token = true is a complete
no-op for every token name, token id and notional value — the treasury
state is unchanged, no event is emitted, nothing is frozen, and the call
never fails ("Not implemented for V1"). -/
theorem C10_native_token_noop :
    ∀ (self : BridgeTreasury) (token_name : String)
      (token_id notional_value : Nat),
      approve_new_token self token_name token_id true notional_value =
        .ok (self, [], []) := by
  intro self token_name token_id notional_value
  rfl
